import Mathlib

/-!
# LWB scheduler interface (`core/net/scheduler.h`)

A shallow embedding of the host-side scheduler interface of the Low-power
Wireless Bus: the compile-time configuration, the wire structures and the
accessor macros of `scheduler.h`, followed by the scheduler operations the
header declares, whose bodies are modelled from the specification.

Conventions
* Every `uintN_t` object is a `Nat`; a store into such an object reduces the
  stored value modulo `2 ^ N`, as the C assignment does.
* A C truth value (`> 0`, `== 0`) is a `Bool`.
* A macro taking a pointer `s` to a schedule and assigning through it is a
  function from the schedule to the updated schedule.
* A `#ifndef X` / `#define X d` / `#endif` block is an optional override in
  `lwb_conf`: `none` selects the header's own definition `d`.
* The preprocessor replaces a name by its replacement list, not by its value.
  `LWB_CONF_SCHED_T_NO_REQ` is defined as `LWB_CONF_SCHED_PERIOD_MIN * 2`
  without parentheses, so these two names are kept as replacement lists
  (`ctext`) and get their value only where the expanded text is evaluated.
  The other names are used as whole operands in this development and are
  kept as their values.
-/

namespace LWB

/-! ## Replacement lists and their evaluation -/

/-- The binary operators of a replacement list: `+`, `*` and `/`. -/
inductive cbinop where
  | add
  | mul
  | div
deriving Repr, DecidableEq

/-- The text of an arithmetic expression as the preprocessor sees it: an
operand followed by operator and operand pairs, in the order written.  An
operand is an integer literal or a parenthesised expression, which the
grammar of C treats as one primary expression; it is given by its value.
So `2` is `⟨2, []⟩`, `1+1` is `⟨1, [(.add, 1)]⟩` and `(1+1)` is `⟨2, []⟩`. -/
structure ctext where
  head : Nat
  tail : List (cbinop × Nat)
deriving Repr, DecidableEq

/-- The text `e op n`: the operator and the operand written after `e`. -/
def ctext.followed (e : ctext) (op : cbinop) (n : Nat) : ctext :=
  { e with tail := e.tail ++ [(op, n)] }

/-- The text `left op e`: the text `e` written after `left` and the operator,
which is what the compiler reads when `e` is the expansion of a name that
stands to the right of `op`. -/
def ctext.after (e : ctext) (left : ctext) (op : cbinop) : ctext :=
  { head := left.head, tail := left.tail ++ (op, e.head) :: e.tail }

/-- Evaluation of the rest of an expression text by the grammar of C: `*` and
`/` bind tighter than `+`, and all three associate to the left.  `acc` is the
sum of the terms that are complete and `term` the value of the term being
read.  Division is the division of non-negative integers; a zero divisor is
not a constant expression and no text used below has one. -/
def cvalue_from (acc term : Nat) : List (cbinop × Nat) → Nat
  | [] => acc + term
  | (.mul, n) :: rest => cvalue_from acc (term * n) rest
  | (.div, n) :: rest => cvalue_from acc (term / n) rest
  | (.add, n) :: rest => cvalue_from (acc + term) n rest

/-- The value of an expression text. -/
def cvalue (e : ctext) : Nat := cvalue_from 0 e.head e.tail

/-! ## Compile-time configuration -/

/-- The configuration a build hands to `scheduler.h`.  The first eight fields
are the macros the header guards with `#ifndef` (an override or `none`); the
last three are macros the header uses but never defines.  The overrides of
`LWB_CONF_SCHED_T_NO_REQ` and `LWB_CONF_SCHED_PERIOD_MIN` are replacement
lists. -/
structure lwb_conf where
  SCHED_T_NO_REQ : Option ctext := none
  SCHED_COMPRESS : Option Nat := none
  SCHED_SACK_BUFFER_SIZE : Option Nat := none
  SCHED_USE_XMEM : Option Nat := none
  SCHED_PERIOD_MAX : Option Nat := none
  SCHED_PERIOD_MIN : Option ctext := none
  SCHED_PERIOD_IDLE : Option Nat := none
  SCHED_STREAM_REMOVAL_THRES : Option Nat := none
  MAX_DATA_SLOTS : Nat
  STREAM_EXTRA_DATA_LEN : Nat
  MAX_PACKET_LEN : Nat
deriving Repr, DecidableEq

/-- Source: `#define LWB_CONF_SCHED_PERIOD_MIN 2` unless overridden: the
replacement list of the name. -/
def LWB_CONF_SCHED_PERIOD_MIN_text (c : lwb_conf) : ctext :=
  match c.SCHED_PERIOD_MIN with
  | some e => e
  | none => ⟨2, []⟩

/-- The minimum period: the value of `LWB_CONF_SCHED_PERIOD_MIN` used as an
expression of its own. -/
def LWB_CONF_SCHED_PERIOD_MIN (c : lwb_conf) : Nat :=
  cvalue (LWB_CONF_SCHED_PERIOD_MIN_text c)

/-- Source: `#define LWB_CONF_SCHED_PERIOD_MAX 30` unless overridden. -/
def LWB_CONF_SCHED_PERIOD_MAX (c : lwb_conf) : Nat :=
  match c.SCHED_PERIOD_MAX with
  | some v => v
  | none => 30

/-- Source: `#define LWB_CONF_SCHED_PERIOD_IDLE 10` unless overridden. -/
def LWB_CONF_SCHED_PERIOD_IDLE (c : lwb_conf) : Nat :=
  match c.SCHED_PERIOD_IDLE with
  | some v => v
  | none => 10

/-- Source: `#define LWB_CONF_SCHED_T_NO_REQ LWB_CONF_SCHED_PERIOD_MIN * 2` unless
overridden: the replacement list of the name after rescanning, which is the
replacement list of `LWB_CONF_SCHED_PERIOD_MIN` followed by `* 2`.  The
header puts no parentheses around either. -/
def LWB_CONF_SCHED_T_NO_REQ_text (c : lwb_conf) : ctext :=
  match c.SCHED_T_NO_REQ with
  | some e => e
  | none => (LWB_CONF_SCHED_PERIOD_MIN_text c).followed .mul 2

/-- The no-request timeout: the value of `LWB_CONF_SCHED_T_NO_REQ` used as an
expression of its own. -/
def LWB_CONF_SCHED_T_NO_REQ (c : lwb_conf) : Nat :=
  cvalue (LWB_CONF_SCHED_T_NO_REQ_text c)

/-- Source: `#define LWB_CONF_SCHED_COMPRESS 1` unless overridden. -/
def LWB_CONF_SCHED_COMPRESS (c : lwb_conf) : Nat :=
  match c.SCHED_COMPRESS with
  | some v => v
  | none => 1

/-- Source: `#define LWB_CONF_SCHED_SACK_BUFFER_SIZE 5` unless overridden. -/
def LWB_CONF_SCHED_SACK_BUFFER_SIZE (c : lwb_conf) : Nat :=
  match c.SCHED_SACK_BUFFER_SIZE with
  | some v => v
  | none => 5

/-- Source: `#define LWB_CONF_SCHED_USE_XMEM 0` unless overridden. -/
def LWB_CONF_SCHED_USE_XMEM (c : lwb_conf) : Nat :=
  match c.SCHED_USE_XMEM with
  | some v => v
  | none => 0

/-- Source: `#define LWB_CONF_SCHED_STREAM_REMOVAL_THRES 10` unless overridden. -/
def LWB_CONF_SCHED_STREAM_REMOVAL_THRES (c : lwb_conf) : Nat :=
  match c.SCHED_STREAM_REMOVAL_THRES with
  | some v => v
  | none => 10

/-- Constant `LWB_CONF_MAX_DATA_SLOTS`, defined outside the header. -/
def LWB_CONF_MAX_DATA_SLOTS (c : lwb_conf) : Nat := c.MAX_DATA_SLOTS

/-- Constant `LWB_CONF_MAX_PACKET_LEN`, defined outside the header. -/
def LWB_CONF_MAX_PACKET_LEN (c : lwb_conf) : Nat := c.MAX_PACKET_LEN

/-- The configuration in which every guarded macro keeps the header's
definition; the three foreign constants are arguments. -/
def lwb_conf_default (max_data_slots extra_data_len max_packet_len : Nat) : lwb_conf :=
  { MAX_DATA_SLOTS := max_data_slots
    STREAM_EXTRA_DATA_LEN := extra_data_len
    MAX_PACKET_LEN := max_packet_len }

/-! ## The schedule packet and its accessor macros -/

/-- Structure `lwb_schedule_t`: `uint32_t time`, `uint16_t host_id`, `uint16_t period`,
`uint8_t n_slots`, `uint16_t slot[LWB_CONF_MAX_DATA_SLOTS]`.  The list `slot`
holds the entries of the array that are in use. -/
structure lwb_schedule_t where
  time : Nat
  host_id : Nat
  period : Nat
  n_slots : Nat
  slot : List Nat
deriving Repr, DecidableEq

/-- Complement `~m` evaluated in a 16-bit unsigned operand, the type of the
constant `0x8000` on the 16-bit targets of this code.  Evaluated in a wider
`int` the complement has further high bits set, which the 16-bit `period` it
is combined with and stored into does not have (`set_2nd_period_int32`). -/
def bnot16 (m : Nat) : Nat := (2 ^ 16 - 1) ^^^ (m % 2 ^ 16)

/-- Source: `#define LWB_SCHED_SET_AS_1ST(s) ((s)->period |= 0x8000)` -/
def LWB_SCHED_SET_AS_1ST (s : lwb_schedule_t) : lwb_schedule_t :=
  { s with period := (s.period ||| 0x8000) % 2 ^ 16 }

/-- Source: `#define LWB_SCHED_SET_AS_2ND(s) ((s)->period &= ~0x8000)` -/
def LWB_SCHED_SET_AS_2ND (s : lwb_schedule_t) : lwb_schedule_t :=
  { s with period := (s.period &&& bnot16 0x8000) % 2 ^ 16 }

/-- Source: `#define LWB_SCHED_IS_1ST(s) (((s)->period & 0x8000) > 0)` -/
def LWB_SCHED_IS_1ST (s : lwb_schedule_t) : Bool :=
  decide ((s.period &&& 0x8000) > 0)

/-- Source: `#define LWB_SCHED_IS_2ND(s) (((s)->period & 0x8000) == 0)` -/
def LWB_SCHED_IS_2ND (s : lwb_schedule_t) : Bool :=
  decide ((s.period &&& 0x8000) = 0)

/-- Source: `#define LWB_SCHED_N_SLOTS(s) ((s)->n_slots & 0x3f)` -/
def LWB_SCHED_N_SLOTS (s : lwb_schedule_t) : Nat :=
  s.n_slots &&& 0x3f

/-- Source: `#define LWB_SCHED_HAS_DATA_SLOT(s) (((s)->n_slots & 0x3f) > 0)` -/
def LWB_SCHED_HAS_DATA_SLOT (s : lwb_schedule_t) : Bool :=
  decide ((s.n_slots &&& 0x3f) > 0)

/-- Source: `#define LWB_SCHED_HAS_CONT_SLOT(s) (((s)->n_slots & 0x40) > 0)` -/
def LWB_SCHED_HAS_CONT_SLOT (s : lwb_schedule_t) : Bool :=
  decide ((s.n_slots &&& 0x40) > 0)

/-- Source: `#define LWB_SCHED_HAS_SACK_SLOT(s) (((s)->n_slots & 0x80) > 0)` -/
def LWB_SCHED_HAS_SACK_SLOT (s : lwb_schedule_t) : Bool :=
  decide ((s.n_slots &&& 0x80) > 0)

/-- Source: `#define LWB_SCHED_SET_CONT_SLOT(s) ((s)->n_slots |= 0x40)` -/
def LWB_SCHED_SET_CONT_SLOT (s : lwb_schedule_t) : lwb_schedule_t :=
  { s with n_slots := (s.n_slots ||| 0x40) % 2 ^ 8 }

/-- Source: `#define LWB_SCHED_SET_SACK_SLOT(s) ((s)->n_slots |= 0x80)` -/
def LWB_SCHED_SET_SACK_SLOT (s : lwb_schedule_t) : lwb_schedule_t :=
  { s with n_slots := (s.n_slots ||| 0x80) % 2 ^ 8 }

/-- The `n_slots` byte holding a data-slot count and the two flags, each flag
at its own bit. -/
def n_slots_byte (count : Nat) (cont sack : Bool) : Nat :=
  count + 64 * cont.toNat + 128 * sack.toNat

/-! ## Wire structures and their length constants -/

/-- Source: `#define LWB_SACK_MIN_PKT_LEN 4` -/
def LWB_SACK_MIN_PKT_LEN : Nat := 4

/-- Structure `lwb_stream_req_t`: `uint16_t node_id`, `uint8_t stream_id`, `uint16_t ipi`,
`uint8_t extra_data[LWB_CONF_STREAM_EXTRA_DATA_LEN]`. -/
structure lwb_stream_req_t where
  node_id : Nat
  stream_id : Nat
  ipi : Nat
  extra_data : List Nat
deriving Repr, DecidableEq

/-- Structure `lwb_sched_stats_t`: `uint16_t n_added`, `uint16_t n_deleted`,
`uint16_t n_no_space`, `uint32_t t_last_req`, `uint32_t t_last_cont`. -/
structure lwb_sched_stats_t where
  n_added : Nat
  n_deleted : Nat
  n_no_space : Nat
  t_last_req : Nat
  t_last_cont : Nat
deriving Repr, DecidableEq

/-! ## Scheduler state and operations

`scheduler.h` declares `lwb_sched_init`, `lwb_sched_proc_srq`,
`lwb_sched_prepare_sack` and `lwb_sched_compute` without their bodies.  The
definitions of this section follow the specification of the stream registry,
the S-ACK queue and the schedule compiler. -/

/-- Modelled from the spec: the record of one admitted stream (spec §3,
"Stream"), which `scheduler.h` does not declare: identity
`(node_id, stream_id)`, inter-packet interval, extra data, the rounds elapsed
since the stream was last served and the consecutive-miss counter. -/
structure lwb_stream where
  node_id : Nat
  stream_id : Nat
  ipi : Nat
  extra_data : List Nat
  elapsed : Nat
  n_miss : Nat
deriving Repr, DecidableEq

/-- Modelled from the spec: the sizes the spec names without a value and
`scheduler.h` has no macro for: the capacity of the stream registry, the
reserved inter-packet interval that requests a removal besides zero (if any),
and the width of one additional entry of an S-ACK packet. -/
structure lwb_sched_params where
  max_n_streams : Nat
  ipi_reserved : Option Nat
  sack_entry_len : Nat
deriving Repr, DecidableEq

/-- Modelled from the spec: the scheduler context (spec §9, "a single owned
scheduler context object"), whose variables are defined outside
`scheduler.h`: the stream registry in admission order, the S-ACK queue in
arrival order and the statistics. -/
structure lwb_sched_ctx where
  streams : List lwb_stream
  pending_sack : List (Nat × Nat)
  stats : lwb_sched_stats_t
deriving Repr, DecidableEq

/-- Modelled from the spec: the S-ACK packet `lwb_sched_prepare_sack` writes
(spec §4.3, §6), the body of which is not in `scheduler.h`: the first pending
entry as header, then the additional entries; `n_extra` is their count. -/
structure lwb_sack_packet where
  node_id : Nat
  stream_id : Nat
  n_extra : Nat
  extra : List (Nat × Nat)
deriving Repr, DecidableEq

/-- Modelled from the spec: "`ipi` of zero or an implementation-reserved
sentinel means remove this stream" (spec §3); the test is part of the missing
body of `lwb_sched_proc_srq`. -/
def ipi_means_remove (p : lwb_sched_params) (ipi : Nat) : Bool :=
  ipi == 0 || p.ipi_reserved == some ipi

/-- Modelled from the spec: S-ACK queue `enqueue` (spec §4.3), part of the
missing body of `lwb_sched_proc_srq`: "appends unless the queue is at its
fixed capacity, in which case the entry is dropped and a no-space condition
is recorded". -/
def sack_enqueue (c : lwb_conf) (ctx : lwb_sched_ctx) (node_id stream_id : Nat) :
    lwb_sched_ctx :=
  if ctx.pending_sack.length < LWB_CONF_SCHED_SACK_BUFFER_SIZE c then
    { ctx with pending_sack := ctx.pending_sack ++ [(node_id, stream_id)] }
  else
    { ctx with stats := { ctx.stats with n_no_space := (ctx.stats.n_no_space + 1) % 2 ^ 16 } }

/-- Whether the stream is the one a request names. -/
def lwb_stream.is (s : lwb_stream) (node_id stream_id : Nat) : Bool :=
  s.node_id == node_id && s.stream_id == stream_id

/-- Modelled from the spec: Stream Registry `process_request` (spec §4.1), the
missing body of `lwb_sched_proc_srq`; `now` is the time of receipt.  The "last
request seen" time is always updated.  A removal request deletes the entry if
present and counts a deletion; another request for a present stream
overwrites its interval and extra data, resets its miss counter and enqueues
an S-ACK; a request for an absent stream is inserted, counted as added and
acknowledged if the registry has room, and otherwise only counted as
no-space. -/
def lwb_sched_proc_srq (c : lwb_conf) (p : lwb_sched_params) (now : Nat)
    (ctx : lwb_sched_ctx) (req : lwb_stream_req_t) : lwb_sched_ctx :=
  let ctx := { ctx with stats := { ctx.stats with t_last_req := now % 2 ^ 32 } }
  let present := ctx.streams.any (fun s => s.is req.node_id req.stream_id)
  if ipi_means_remove p req.ipi then
    if present then
      { ctx with
        streams := ctx.streams.filter (fun s => !s.is req.node_id req.stream_id)
        stats := { ctx.stats with n_deleted := (ctx.stats.n_deleted + 1) % 2 ^ 16 } }
    else ctx
  else if present then
    sack_enqueue c
      { ctx with
        streams := ctx.streams.map (fun s =>
          if s.is req.node_id req.stream_id then
            { s with ipi := req.ipi, extra_data := req.extra_data, n_miss := 0 }
          else s) }
      req.node_id req.stream_id
  else if ctx.streams.length < p.max_n_streams then
    sack_enqueue c
      { ctx with
        streams := ctx.streams ++
          [{ node_id := req.node_id, stream_id := req.stream_id, ipi := req.ipi,
             extra_data := req.extra_data, elapsed := 0, n_miss := 0 }]
        stats := { ctx.stats with n_added := (ctx.stats.n_added + 1) % 2 ^ 16 } }
      req.node_id req.stream_id
  else
    { ctx with stats := { ctx.stats with n_no_space := (ctx.stats.n_no_space + 1) % 2 ^ 16 } }

/-- Modelled from the spec: the number of additional entries one S-ACK packet
has room for (spec §6: "packed into the remaining packet capacity"), part of
the missing body of `lwb_sched_prepare_sack`; the count travels in the
`uint8_t n_extra`. -/
def sack_extra_capacity (c : lwb_conf) (p : lwb_sched_params) : Nat :=
  min 255 ((LWB_CONF_MAX_PACKET_LEN c - LWB_SACK_MIN_PKT_LEN) / p.sack_entry_len)

/-- Modelled from the spec: S-ACK queue `prepare_packet` (spec §4.3), the
missing body of `lwb_sched_prepare_sack`: with an empty queue it returns size
0 and no packet; otherwise it drains, in arrival order, the first pending
entry as header and as many further entries as fit, and leaves the rest
queued.  The result is the new context, the packet and the `uint8_t` size. -/
def lwb_sched_prepare_sack (c : lwb_conf) (p : lwb_sched_params) (ctx : lwb_sched_ctx) :
    lwb_sched_ctx × Option lwb_sack_packet × Nat :=
  match ctx.pending_sack with
  | [] => (ctx, none, 0)
  | first :: rest =>
    let extra := rest.take (sack_extra_capacity c p)
    ({ ctx with pending_sack := rest.drop (sack_extra_capacity c p) },
      some { node_id := first.1, stream_id := first.2, n_extra := extra.length, extra := extra },
      (LWB_SACK_MIN_PKT_LEN + extra.length * p.sack_entry_len) % 2 ^ 8)

/-- Modelled from the spec: the state `lwb_sched_init` leaves behind ("resets
all the data structures and sets the initial values"); its body is not in
`scheduler.h`. -/
def lwb_sched_init_ctx : lwb_sched_ctx :=
  { streams := [], pending_sack := [], stats := ⟨0, 0, 0, 0, 0⟩ }

/-- One call into the scheduler that touches the S-ACK queue. -/
inductive lwb_sched_call where
  | proc_srq (now : Nat) (req : lwb_stream_req_t)
  | prepare_sack
deriving Repr, DecidableEq

/-- The context after one call. -/
def lwb_sched_call.apply (c : lwb_conf) (p : lwb_sched_params) (ctx : lwb_sched_ctx) :
    lwb_sched_call → lwb_sched_ctx
  | .proc_srq now req => lwb_sched_proc_srq c p now ctx req
  | .prepare_sack => (lwb_sched_prepare_sack c p ctx).1

/-- The context after a sequence of calls, first call first. -/
def lwb_sched_run (c : lwb_conf) (p : lwb_sched_params) (ctx : lwb_sched_ctx)
    (calls : List lwb_sched_call) : lwb_sched_ctx :=
  calls.foldl (lwb_sched_call.apply c p) ctx

/-! ## Schedule compiler -/

/-- Modelled from the spec: Stream Registry `mark_round_outcome` (spec §4.1),
part of the missing body of `lwb_sched_compute`: the streams served in the
round that ended get their miss counter reset, every other stream gets it
incremented, and a stream whose miss counter exceeds
`LWB_CONF_SCHED_STREAM_REMOVAL_THRES` is evicted and counted as deleted.  The
rounds elapsed since the last service restart for a served stream. -/
def mark_round_outcome (c : lwb_conf) (serviced : List (Nat × Nat)) (ctx : lwb_sched_ctx) :
    lwb_sched_ctx :=
  let marked := ctx.streams.map (fun s =>
    if serviced.contains (s.node_id, s.stream_id) then { s with n_miss := 0, elapsed := 0 }
    else { s with n_miss := s.n_miss + 1 })
  let kept := marked.filter (fun s => decide (s.n_miss ≤ LWB_CONF_SCHED_STREAM_REMOVAL_THRES c))
  { ctx with
    streams := kept
    stats := { ctx.stats with
      n_deleted := (ctx.stats.n_deleted + (marked.length - kept.length)) % 2 ^ 16 } }

/-- Modelled from the spec: Stream Registry `iterate_due_demand` (spec §4.1),
part of the missing body of `lwb_sched_compute`: the admitted streams in
admission order, each with the number of slots it needs in the coming round,
"computed from elapsed rounds since last service relative to its `ipi`"; the
coming round counts as elapsed. -/
def iterate_due_demand (ctx : lwb_sched_ctx) : List (lwb_stream × Nat) :=
  ctx.streams.map (fun s => (s, (s.elapsed + 1) / s.ipi))

/-- Modelled from the spec: the round passing for the registry, part of the
missing body of `lwb_sched_compute`: every admitted stream has one more round
elapsed since its last service. -/
def advance_round (ctx : lwb_sched_ctx) : lwb_sched_ctx :=
  { ctx with streams := ctx.streams.map (fun s => { s with elapsed := s.elapsed + 1 }) }

/-- Modelled from the spec: Schedule Compiler `compute_schedule` (spec §4.2,
steps 1, 2, 3 and 5), the missing body of `lwb_sched_compute`.  The round
outcome is marked first; the first `n_slot_host` data slots go to the host;
then the streams get, in admission order, one slot per unit of due demand
until the demand or `LWB_CONF_MAX_DATA_SLOTS` is exhausted; the slot count is
stored in `n_slots`, the contention flag is set when the registry has room
for a new stream and the S-ACK flag when the S-ACK queue is not empty.  The
period (step 4), the compressed size and the time stamps are left as they
were: the spec fixes no formula for them. -/
def lwb_sched_compute (c : lwb_conf) (p : lwb_sched_params) (ctx : lwb_sched_ctx)
    (sched : lwb_schedule_t) (serviced : List (Nat × Nat)) (n_slot_host : Nat) :
    lwb_sched_ctx × lwb_schedule_t :=
  let ctx1 := mark_round_outcome c serviced ctx
  let host_slots := List.replicate n_slot_host sched.host_id
  let granted := (iterate_due_demand ctx1).flatMap (fun d => List.replicate d.2 d.1.node_id)
  let slot := (host_slots ++ granted).take (LWB_CONF_MAX_DATA_SLOTS c)
  let s0 := { sched with n_slots := slot.length % 2 ^ 8, slot := slot }
  let s1 := if ctx1.streams.length < p.max_n_streams then LWB_SCHED_SET_CONT_SLOT s0 else s0
  let s2 := if ctx1.pending_sack.isEmpty then s1 else LWB_SCHED_SET_SACK_SLOT s1
  (advance_round ctx1, s2)

/-! ## Bit-level facts about natural numbers -/

theorem and_two_pow_eq (x i : Nat) : x &&& 2 ^ i = if x.testBit i then 2 ^ i else 0 := by
  apply Nat.eq_of_testBit_eq
  intro j
  by_cases h : x.testBit i = true
  · simp only [h, if_true, Nat.testBit_and, Nat.testBit_two_pow]
    by_cases hj : i = j
    · subst hj; simp [h]
    · simp [hj]
  · simp only [h, Nat.testBit_and, Nat.testBit_two_pow, Nat.zero_testBit]
    by_cases hj : i = j
    · subst hj; simp [h]
    · simp [hj]

theorem and_two_pow_pos_iff (x i : Nat) : 0 < x &&& 2 ^ i ↔ x.testBit i = true := by
  rw [and_two_pow_eq]
  by_cases h : x.testBit i = true
  · simp [h, Nat.two_pow_pos]
  · simp [h]

theorem and_two_pow_eq_zero_iff (x i : Nat) : x &&& 2 ^ i = 0 ↔ x.testBit i = false := by
  rw [and_two_pow_eq]
  by_cases h : x.testBit i = true
  · simp [h, Nat.two_pow_pos]
  · simp [h]

theorem or_two_pow_mod_testBit (x i w j : Nat) :
    ((x ||| 2 ^ i) % 2 ^ w).testBit j = (decide (j < w) && (x.testBit j || decide (i = j))) := by
  simp [Nat.testBit_mod_two_pow, Nat.testBit_or, Nat.testBit_two_pow]

/-- Storing `x | 2^i` into a `w`-bit object, with `i < w`, leaves the bits
below `i` as they were. -/
theorem or_two_pow_mod_low (x i w : Nat) (hi : i < w) :
    ((x ||| 2 ^ i) % 2 ^ w) % 2 ^ i = x % 2 ^ i := by
  apply Nat.eq_of_testBit_eq
  intro j
  rw [Nat.testBit_mod_two_pow, or_two_pow_mod_testBit, Nat.testBit_mod_two_pow]
  by_cases h : j < i
  · have h1 : j < w := by omega
    have h2 : ¬ (i = j) := by omega
    simp [h, h1, h2]
  · simp [h]

/-- Storing `x | 2^i` into a `w`-bit object is idempotent. -/
theorem or_two_pow_mod_idem (x i w : Nat) :
    (((x ||| 2 ^ i) % 2 ^ w) ||| 2 ^ i) % 2 ^ w = (x ||| 2 ^ i) % 2 ^ w := by
  apply Nat.eq_of_testBit_eq
  intro j
  rw [or_two_pow_mod_testBit, or_two_pow_mod_testBit]
  by_cases h : j < w <;> by_cases h2 : i = j <;> simp [h, h2]

theorem bnot16_0x8000 : bnot16 0x8000 = 2 ^ 15 - 1 := by decide

/-- The value `LWB_SCHED_SET_AS_2ND` stores is the period without bit 15 and
above. -/
theorem set_2nd_period (p : Nat) : (p &&& bnot16 0x8000) % 2 ^ 16 = p % 2 ^ 15 := by
  rw [bnot16_0x8000, Nat.and_pow_two_sub_one_eq_mod]
  have h : p % 2 ^ 15 < 2 ^ 15 := Nat.mod_lt _ (by norm_num)
  exact Nat.mod_eq_of_lt (by omega)

/-- With `~0x8000` evaluated in a 32-bit `int` the value stored by
`LWB_SCHED_SET_AS_2ND` is the same. -/
theorem set_2nd_period_int32 (p : Nat) :
    (p &&& ((2 ^ 32 - 1) ^^^ 0x8000)) % 2 ^ 16 = (p &&& bnot16 0x8000) % 2 ^ 16 := by
  have e : (2 ^ 32 - 1) ^^^ 0x8000 = 2 ^ 15 - 1 + 2 ^ 16 * (2 ^ 16 - 1) := by decide
  rw [set_2nd_period, e]
  apply Nat.eq_of_testBit_eq
  intro j
  rw [Nat.testBit_mod_two_pow, Nat.testBit_mod_two_pow, Nat.testBit_and]
  by_cases h16 : j < 16
  · have hb : (2 ^ 15 - 1 + 2 ^ 16 * (2 ^ 16 - 1)).testBit j = decide (j < 15) := by
      rw [Nat.add_comm, Nat.testBit_mul_pow_two_add _ (by norm_num), if_pos h16]
      exact Nat.testBit_two_pow_sub_one 15 j
    rw [hb]
    by_cases h15 : j < 15 <;> simp [h15, h16]
  · have h15 : ¬ j < 15 := by omega
    simp [h15, h16]

/-- The value `LWB_SCHED_SET_AS_1ST` stores is the low 15 bits of the period
plus bit 15. -/
theorem set_1st_period (p : Nat) : (p ||| 0x8000) % 2 ^ 16 = p % 2 ^ 15 + 2 ^ 15 := by
  have e : (0x8000 : Nat) = 2 ^ 15 := by norm_num
  rw [e]
  have hlow := or_two_pow_mod_low p 15 16 (by norm_num)
  have hbit : ((p ||| 2 ^ 15) % 2 ^ 16).testBit 15 = true := by
    rw [or_two_pow_mod_testBit]; simp
  have hlt : (p ||| 2 ^ 15) % 2 ^ 16 < 2 ^ 16 := Nat.mod_lt _ (by norm_num)
  have hge : 2 ^ 15 ≤ (p ||| 2 ^ 15) % 2 ^ 16 := by
    by_contra hc
    have := Nat.testBit_lt_two_pow (Nat.lt_of_not_le hc)
    rw [this] at hbit
    exact Bool.noConfusion hbit
  omega


/-! ## Slot-count byte: decoding -/

theorem n_slots_mask (b : Nat) : b &&& 0x3f = b % 64 :=
  Nat.and_pow_two_sub_one_eq_mod b 6

theorem has_cont_iff (b : Nat) : decide ((b &&& 0x40) > 0) = b.testBit 6 := by
  have e : (0x40 : Nat) = 2 ^ 6 := by norm_num
  rw [e, Bool.eq_iff_iff, decide_eq_true_iff]
  exact and_two_pow_pos_iff b 6

theorem has_sack_iff (b : Nat) : decide ((b &&& 0x80) > 0) = b.testBit 7 := by
  have e : (0x80 : Nat) = 2 ^ 7 := by norm_num
  rw [e, Bool.eq_iff_iff, decide_eq_true_iff]
  exact and_two_pow_pos_iff b 7

set_option maxRecDepth 100000 in
theorem n_slots_byte_decode : ∀ c : Fin 64, ∀ cont sack : Bool,
    (n_slots_byte c.val cont sack &&& 0x3f) = c.val ∧
    decide ((n_slots_byte c.val cont sack &&& 0x40) > 0) = cont ∧
    decide ((n_slots_byte c.val cont sack &&& 0x80) > 0) = sack := by
  decide

/-- C1: for every content of the `n_slots` byte, `LWB_SCHED_N_SLOTS` is the
number in bits 0-5, `LWB_SCHED_HAS_CONT_SLOT` is bit 6, `LWB_SCHED_HAS_SACK_SLOT`
is bit 7 and `LWB_SCHED_HAS_DATA_SLOT` says that the slot count is non-zero;
hence the byte `c + 64*cont + 128*sack` with `c ≤ 63` decodes to
`(c, cont, sack)`. -/
theorem C1_n_slots_byte_decoding (s : lwb_schedule_t) (c : Nat) (cont sack : Bool)
    (hc : c ≤ 63) :
    LWB_SCHED_N_SLOTS s = s.n_slots % 2 ^ 6 ∧
    (LWB_SCHED_HAS_CONT_SLOT s = true ↔ s.n_slots.testBit 6 = true) ∧
    (LWB_SCHED_HAS_SACK_SLOT s = true ↔ s.n_slots.testBit 7 = true) ∧
    (LWB_SCHED_HAS_DATA_SLOT s = true ↔ LWB_SCHED_N_SLOTS s ≠ 0) ∧
    LWB_SCHED_N_SLOTS { s with n_slots := n_slots_byte c cont sack } = c ∧
    LWB_SCHED_HAS_CONT_SLOT { s with n_slots := n_slots_byte c cont sack } = cont ∧
    LWB_SCHED_HAS_SACK_SLOT { s with n_slots := n_slots_byte c cont sack } = sack := by
  refine ⟨n_slots_mask s.n_slots, ?_, ?_, ?_, ?_⟩
  · unfold LWB_SCHED_HAS_CONT_SLOT; rw [has_cont_iff]
  · unfold LWB_SCHED_HAS_SACK_SLOT; rw [has_sack_iff]
  · unfold LWB_SCHED_HAS_DATA_SLOT LWB_SCHED_N_SLOTS
    rw [decide_eq_true_iff]; exact Nat.pos_iff_ne_zero
  · exact n_slots_byte_decode ⟨c, by omega⟩ cont sack

/-- C1 at the byte `0xC5`: five data slots, contention and S-ACK slot. -/
theorem C1_n_slots_byte_decoding_witness :
    (5 : Nat) ≤ 63 ∧
    LWB_SCHED_N_SLOTS ⟨0, 1, 30, 0xC5, []⟩ = 0xC5 % 2 ^ 6 ∧
    LWB_SCHED_N_SLOTS ⟨0, 1, 30, n_slots_byte 5 true true, []⟩ = 5 ∧
    LWB_SCHED_HAS_CONT_SLOT ⟨0, 1, 30, n_slots_byte 5 true true, []⟩ = true ∧
    LWB_SCHED_HAS_SACK_SLOT ⟨0, 1, 30, n_slots_byte 5 true true, []⟩ = true :=
  have h := C1_n_slots_byte_decoding ⟨0, 1, 30, 0xC5, []⟩ 5 true true (by decide)
  ⟨by decide, h.1, h.2.2.2.2.1, h.2.2.2.2.2.1, h.2.2.2.2.2.2⟩


/-! ## Period field: first/second schedule flag -/

theorem is_1st_iff (p : Nat) : decide ((p &&& 0x8000) > 0) = p.testBit 15 := by
  have e : (0x8000 : Nat) = 2 ^ 15 := by norm_num
  rw [e, Bool.eq_iff_iff, decide_eq_true_iff]
  exact and_two_pow_pos_iff p 15

theorem is_2nd_iff (p : Nat) : decide ((p &&& 0x8000) = 0) = !p.testBit 15 := by
  have e : (0x8000 : Nat) = 2 ^ 15 := by norm_num
  rw [e, Bool.eq_iff_iff, decide_eq_true_iff, and_two_pow_eq_zero_iff]
  cases p.testBit 15 <;> simp

theorem testBit_15_add (x : Nat) (hx : x < 2 ^ 15) : (x + 2 ^ 15).testBit 15 = true := by
  rw [Nat.add_comm, Nat.testBit_two_pow_add_eq, Nat.testBit_lt_two_pow hx]; rfl

theorem testBit_add_two_pow_15_of_ne (x i : Nat) (hx : x < 2 ^ 15) (hi : i ≠ 15) :
    (x + 2 ^ 15).testBit i = x.testBit i := by
  rw [Nat.add_comm]
  rcases Nat.lt_or_gt_of_ne hi with h | h
  · exact Nat.testBit_two_pow_add_gt h x
  · have h1 : 2 ^ 15 + x < 2 ^ i := by
      have : 2 ^ 16 ≤ 2 ^ i := Nat.pow_le_pow_right (by norm_num) h
      omega
    have h2 : x < 2 ^ i := by omega
    rw [Nat.testBit_lt_two_pow h1, Nat.testBit_lt_two_pow h2]

/-- C2: whatever the period field holds, `LWB_SCHED_SET_AS_1ST` yields a
schedule that `LWB_SCHED_IS_1ST`, `LWB_SCHED_SET_AS_2ND` one that
`LWB_SCHED_IS_2ND`, both keep the low 15 bits of the period, and the two
results agree in every member and every period bit except bit 15, which is
set in the first and clear in the second. -/
theorem C2_set_1st_2nd_frame (s : lwb_schedule_t) :
    LWB_SCHED_IS_1ST (LWB_SCHED_SET_AS_1ST s) = true ∧
    LWB_SCHED_IS_2ND (LWB_SCHED_SET_AS_2ND s) = true ∧
    (LWB_SCHED_SET_AS_1ST s).period % 2 ^ 15 = s.period % 2 ^ 15 ∧
    (LWB_SCHED_SET_AS_2ND s).period % 2 ^ 15 = s.period % 2 ^ 15 ∧
    (∀ i, i ≠ 15 → (LWB_SCHED_SET_AS_1ST s).period.testBit i
        = (LWB_SCHED_SET_AS_2ND s).period.testBit i) ∧
    (LWB_SCHED_SET_AS_1ST s).period.testBit 15 = true ∧
    (LWB_SCHED_SET_AS_2ND s).period.testBit 15 = false ∧
    { LWB_SCHED_SET_AS_1ST s with period := 0 } = { LWB_SCHED_SET_AS_2ND s with period := 0 } := by
  have hlt : s.period % 2 ^ 15 < 2 ^ 15 := Nat.mod_lt _ (by norm_num)
  have h1 : (LWB_SCHED_SET_AS_1ST s).period = s.period % 2 ^ 15 + 2 ^ 15 :=
    set_1st_period s.period
  have h2 : (LWB_SCHED_SET_AS_2ND s).period = s.period % 2 ^ 15 :=
    set_2nd_period s.period
  refine ⟨?_, ?_, ?_, ?_, ?_, ?_, ?_, ?_⟩
  · unfold LWB_SCHED_IS_1ST; rw [is_1st_iff, h1]; exact testBit_15_add _ hlt
  · unfold LWB_SCHED_IS_2ND; rw [is_2nd_iff, h2, Nat.testBit_lt_two_pow hlt]; rfl
  · rw [h1]; omega
  · rw [h2]; omega
  · intro i hi; rw [h1, h2]; exact testBit_add_two_pow_15_of_ne _ i hlt hi
  · rw [h1]; exact testBit_15_add _ hlt
  · rw [h2]; exact Nat.testBit_lt_two_pow hlt
  · rfl

/-! ## Slot-count byte: setting the flags -/

theorem set_flag_low_bits (b i : Nat) (hi : i < 8) (h6 : 6 ≤ i) :
    ((b ||| 2 ^ i) % 2 ^ 8) &&& 0x3f = b &&& 0x3f := by
  rw [n_slots_mask, n_slots_mask]
  have h := or_two_pow_mod_low b i 8 hi
  have e : (64 : Nat) = 2 ^ 6 := by norm_num
  have hd : (2 : Nat) ^ 6 ∣ 2 ^ i := Nat.pow_dvd_pow 2 h6
  rw [e, ← Nat.mod_mod_of_dvd ((b ||| 2 ^ i) % 2 ^ 8) hd, h, Nat.mod_mod_of_dvd b hd]

/-- C9: on every `n_slots` byte, `LWB_SCHED_SET_CONT_SLOT` makes
`LWB_SCHED_HAS_CONT_SLOT` true and `LWB_SCHED_SET_SACK_SLOT` makes
`LWB_SCHED_HAS_SACK_SLOT` true; each keeps `LWB_SCHED_N_SLOTS`, the other flag
and every other member of the schedule, and each is idempotent. -/
theorem C9_set_flags_frame (s : lwb_schedule_t) :
    LWB_SCHED_HAS_CONT_SLOT (LWB_SCHED_SET_CONT_SLOT s) = true ∧
    LWB_SCHED_HAS_SACK_SLOT (LWB_SCHED_SET_SACK_SLOT s) = true ∧
    LWB_SCHED_N_SLOTS (LWB_SCHED_SET_CONT_SLOT s) = LWB_SCHED_N_SLOTS s ∧
    LWB_SCHED_N_SLOTS (LWB_SCHED_SET_SACK_SLOT s) = LWB_SCHED_N_SLOTS s ∧
    LWB_SCHED_HAS_SACK_SLOT (LWB_SCHED_SET_CONT_SLOT s) = LWB_SCHED_HAS_SACK_SLOT s ∧
    LWB_SCHED_HAS_CONT_SLOT (LWB_SCHED_SET_SACK_SLOT s) = LWB_SCHED_HAS_CONT_SLOT s ∧
    LWB_SCHED_SET_CONT_SLOT (LWB_SCHED_SET_CONT_SLOT s) = LWB_SCHED_SET_CONT_SLOT s ∧
    LWB_SCHED_SET_SACK_SLOT (LWB_SCHED_SET_SACK_SLOT s) = LWB_SCHED_SET_SACK_SLOT s ∧
    { LWB_SCHED_SET_CONT_SLOT s with n_slots := 0 } = { s with n_slots := 0 } ∧
    { LWB_SCHED_SET_SACK_SLOT s with n_slots := 0 } = { s with n_slots := 0 } := by
  have e6 : (0x40 : Nat) = 2 ^ 6 := by norm_num
  have e7 : (0x80 : Nat) = 2 ^ 7 := by norm_num
  refine ⟨?_, ?_, ?_, ?_, ?_, ?_, ?_, ?_, rfl, rfl⟩
  · unfold LWB_SCHED_HAS_CONT_SLOT LWB_SCHED_SET_CONT_SLOT
    rw [has_cont_iff]; simp only [e6]; rw [or_two_pow_mod_testBit]; simp
  · unfold LWB_SCHED_HAS_SACK_SLOT LWB_SCHED_SET_SACK_SLOT
    rw [has_sack_iff]; simp only [e7]; rw [or_two_pow_mod_testBit]; simp
  · unfold LWB_SCHED_N_SLOTS LWB_SCHED_SET_CONT_SLOT
    simp only [e6]; exact set_flag_low_bits s.n_slots 6 (by norm_num) (by norm_num)
  · unfold LWB_SCHED_N_SLOTS LWB_SCHED_SET_SACK_SLOT
    simp only [e7]; exact set_flag_low_bits s.n_slots 7 (by norm_num) (by norm_num)
  · unfold LWB_SCHED_HAS_SACK_SLOT LWB_SCHED_SET_CONT_SLOT
    rw [has_sack_iff, has_sack_iff]; simp only [e6]; rw [or_two_pow_mod_testBit]; simp
  · unfold LWB_SCHED_HAS_CONT_SLOT LWB_SCHED_SET_SACK_SLOT
    rw [has_cont_iff, has_cont_iff]; simp only [e7]; rw [or_two_pow_mod_testBit]; simp
  · unfold LWB_SCHED_SET_CONT_SLOT
    simp only [e6]; rw [or_two_pow_mod_idem]
  · unfold LWB_SCHED_SET_SACK_SLOT
    simp only [e7]; rw [or_two_pow_mod_idem]


theorem is_1st_set_as_1st (s : lwb_schedule_t) :
    LWB_SCHED_IS_1ST (LWB_SCHED_SET_AS_1ST s) = true := by
  have hlt : s.period % 2 ^ 15 < 2 ^ 15 := Nat.mod_lt _ (by norm_num)
  have h1 : (LWB_SCHED_SET_AS_1ST s).period = s.period % 2 ^ 15 + 2 ^ 15 :=
    set_1st_period s.period
  unfold LWB_SCHED_IS_1ST; rw [is_1st_iff, h1]; exact testBit_15_add _ hlt

theorem is_2nd_set_as_2nd (s : lwb_schedule_t) :
    LWB_SCHED_IS_2ND (LWB_SCHED_SET_AS_2ND s) = true := by
  have hlt : s.period % 2 ^ 15 < 2 ^ 15 := Nat.mod_lt _ (by norm_num)
  have h2 : (LWB_SCHED_SET_AS_2ND s).period = s.period % 2 ^ 15 :=
    set_2nd_period s.period
  unfold LWB_SCHED_IS_2ND; rw [is_2nd_iff, h2, Nat.testBit_lt_two_pow hlt]; rfl

/-- C10: on every period field `LWB_SCHED_IS_1ST` and `LWB_SCHED_IS_2ND` are
complements; marking as 1st and then as 2nd gives a 2nd schedule, marking as
2nd and then as 1st gives a 1st one; and when the period field is below
`0x8000`, in particular when it lies between the default
`LWB_CONF_SCHED_PERIOD_MIN` and `LWB_CONF_SCHED_PERIOD_MAX`, marking as 1st and
then as 2nd returns the schedule unchanged. -/
theorem C10_1st_2nd_complement_roundtrip (s : lwb_schedule_t) (a b d : Nat) :
    LWB_SCHED_IS_1ST s = !LWB_SCHED_IS_2ND s ∧
    LWB_SCHED_IS_2ND (LWB_SCHED_SET_AS_2ND (LWB_SCHED_SET_AS_1ST s)) = true ∧
    LWB_SCHED_IS_1ST (LWB_SCHED_SET_AS_2ND (LWB_SCHED_SET_AS_1ST s)) = false ∧
    LWB_SCHED_IS_1ST (LWB_SCHED_SET_AS_1ST (LWB_SCHED_SET_AS_2ND s)) = true ∧
    LWB_SCHED_IS_2ND (LWB_SCHED_SET_AS_1ST (LWB_SCHED_SET_AS_2ND s)) = false ∧
    (s.period < 0x8000 → LWB_SCHED_SET_AS_2ND (LWB_SCHED_SET_AS_1ST s) = s) ∧
    (LWB_CONF_SCHED_PERIOD_MIN (lwb_conf_default a b d) ≤ s.period →
      s.period ≤ LWB_CONF_SCHED_PERIOD_MAX (lwb_conf_default a b d) →
      LWB_SCHED_SET_AS_2ND (LWB_SCHED_SET_AS_1ST s) = s) := by
  have hcompl : ∀ t : lwb_schedule_t, LWB_SCHED_IS_1ST t = !LWB_SCHED_IS_2ND t := by
    intro t
    unfold LWB_SCHED_IS_1ST LWB_SCHED_IS_2ND
    rw [is_1st_iff, is_2nd_iff, Bool.not_not]
  have h21 := is_2nd_set_as_2nd (LWB_SCHED_SET_AS_1ST s)
  have h12 := is_1st_set_as_1st (LWB_SCHED_SET_AS_2ND s)
  have hrt : s.period < 0x8000 → LWB_SCHED_SET_AS_2ND (LWB_SCHED_SET_AS_1ST s) = s := by
    intro hp
    have hper : (LWB_SCHED_SET_AS_2ND (LWB_SCHED_SET_AS_1ST s)).period = s.period := by
      have h2 := set_2nd_period (LWB_SCHED_SET_AS_1ST s).period
      have h1 : (LWB_SCHED_SET_AS_1ST s).period = s.period % 2 ^ 15 + 2 ^ 15 :=
        set_1st_period s.period
      have h3 : (LWB_SCHED_SET_AS_2ND (LWB_SCHED_SET_AS_1ST s)).period
          = (LWB_SCHED_SET_AS_1ST s).period % 2 ^ 15 := h2
      rw [h3, h1]
      omega
    cases s with
    | mk time host_id period n_slots slot =>
      simp only [LWB_SCHED_SET_AS_2ND, LWB_SCHED_SET_AS_1ST] at hper ⊢
      rw [hper]
  refine ⟨hcompl s, h21, ?_, h12, ?_, hrt, ?_⟩
  · rw [hcompl, h21]; rfl
  · have := hcompl (LWB_SCHED_SET_AS_1ST (LWB_SCHED_SET_AS_2ND s))
    rw [h12] at this
    cases h : LWB_SCHED_IS_2ND (LWB_SCHED_SET_AS_1ST (LWB_SCHED_SET_AS_2ND s))
    · rfl
    · rw [h] at this; exact absurd this (by decide)
  · intro _ hmax
    apply hrt
    have : LWB_CONF_SCHED_PERIOD_MAX (lwb_conf_default a b d) = 30 := rfl
    omega

/-- C10 at the idle period 10 of a schedule with three data slots. -/
theorem C10_1st_2nd_complement_roundtrip_witness :
    (10 : Nat) < 0x8000 ∧
    LWB_CONF_SCHED_PERIOD_MIN (lwb_conf_default 20 0 63) ≤ 10 ∧
    10 ≤ LWB_CONF_SCHED_PERIOD_MAX (lwb_conf_default 20 0 63) ∧
    LWB_SCHED_SET_AS_2ND (LWB_SCHED_SET_AS_1ST ⟨7, 1, 10, 3, [4, 5, 6]⟩)
      = ⟨7, 1, 10, 3, [4, 5, 6]⟩ :=
  ⟨by decide, by decide, by decide,
    (C10_1st_2nd_complement_roundtrip ⟨7, 1, 10, 3, [4, 5, 6]⟩ 20 0 63).2.2.2.2.2.2
      (by decide) (by decide)⟩

/-! ## Length constants and configuration defaults -/

/-- When the replacement list of `LWB_CONF_SCHED_PERIOD_MIN` has no `+`
outside parentheses, the text followed by `* 2` has twice its value. -/
theorem cvalue_from_followed_mul (k : Nat) (tail : List (cbinop × Nat)) :
    (∀ x ∈ tail, x.1 ≠ .add) →
    ∀ acc term : Nat,
      cvalue_from acc term (tail ++ [(.mul, k)]) + k * acc
        = k * cvalue_from acc term tail + acc := by
  induction tail with
  | nil =>
    intro _ acc term
    simp only [List.nil_append, cvalue_from]
    ring
  | cons x rest ih =>
    intro hno acc term
    have hrest : ∀ y ∈ rest, y.1 ≠ .add := fun y hy => hno y (List.mem_cons_of_mem x hy)
    have hx : x.1 ≠ .add := hno x (List.mem_cons_self x rest)
    obtain ⟨op, n⟩ := x
    cases op with
    | add => exact absurd rfl hx
    | mul => exact ih hrest acc (term * n)
    | div => exact ih hrest acc (term / n)

/-- Unless a build defines `LWB_CONF_SCHED_T_NO_REQ` itself, it is twice the
minimum period whenever the replacement list of `LWB_CONF_SCHED_PERIOD_MIN`
has no `+` outside parentheses. -/
theorem t_no_req_twice_period_min_of_no_add (c : lwb_conf)
    (hdef : c.SCHED_T_NO_REQ = none)
    (hno : ∀ x ∈ (LWB_CONF_SCHED_PERIOD_MIN_text c).tail, x.1 ≠ .add) :
    LWB_CONF_SCHED_T_NO_REQ c = 2 * LWB_CONF_SCHED_PERIOD_MIN c := by
  unfold LWB_CONF_SCHED_T_NO_REQ LWB_CONF_SCHED_PERIOD_MIN LWB_CONF_SCHED_T_NO_REQ_text
  rw [hdef]
  have h := cvalue_from_followed_mul 2 (LWB_CONF_SCHED_PERIOD_MIN_text c).tail hno 0
    (LWB_CONF_SCHED_PERIOD_MIN_text c).head
  simpa [cvalue, ctext.followed] using h

/-- With `LWB_CONF_SCHED_PERIOD_MIN` defined as one literal or one parenthesised
expression of value `m`, `LWB_CONF_SCHED_T_NO_REQ` is `2 * m`. -/
theorem t_no_req_twice_period_min_of_operand (c : lwb_conf) (m : Nat) :
    LWB_CONF_SCHED_T_NO_REQ
      { c with SCHED_T_NO_REQ := none, SCHED_PERIOD_MIN := some ⟨m, []⟩ } = 2 * m := by
  show 0 + m * 2 = 2 * m
  omega

/-- C6: the header's `LWB_CONF_SCHED_T_NO_REQ` is not twice the minimum period
for every configured minimum period.  In the build that defines
`LWB_CONF_SCHED_PERIOD_MIN` as `1+1` the minimum period is 2 and
`LWB_CONF_SCHED_T_NO_REQ` expands to `1+1 * 2`, which is 3 and not 4; in the
default build `12 / LWB_CONF_SCHED_T_NO_REQ` expands to `12 / 2 * 2`, which is
12 and not `12 / 4`.  With the literal default the value itself is 4. -/
theorem C6_t_no_req_unparenthesised :
    LWB_CONF_SCHED_PERIOD_MIN
      { lwb_conf_default 20 0 63 with SCHED_PERIOD_MIN := some ⟨1, [(.add, 1)]⟩ } = 2 ∧
    LWB_CONF_SCHED_T_NO_REQ_text
      { lwb_conf_default 20 0 63 with SCHED_PERIOD_MIN := some ⟨1, [(.add, 1)]⟩ }
      = ⟨1, [(.add, 1), (.mul, 2)]⟩ ∧
    LWB_CONF_SCHED_T_NO_REQ
      { lwb_conf_default 20 0 63 with SCHED_PERIOD_MIN := some ⟨1, [(.add, 1)]⟩ } = 3 ∧
    LWB_CONF_SCHED_T_NO_REQ
      { lwb_conf_default 20 0 63 with SCHED_PERIOD_MIN := some ⟨1, [(.add, 1)]⟩ }
      ≠ 2 * LWB_CONF_SCHED_PERIOD_MIN
          { lwb_conf_default 20 0 63 with SCHED_PERIOD_MIN := some ⟨1, [(.add, 1)]⟩ } ∧
    LWB_CONF_SCHED_T_NO_REQ (lwb_conf_default 20 0 63) = 4 ∧
    cvalue ((LWB_CONF_SCHED_T_NO_REQ_text (lwb_conf_default 20 0 63)).after ⟨12, []⟩ .div)
      = 12 ∧
    12 / LWB_CONF_SCHED_T_NO_REQ (lwb_conf_default 20 0 63) = 3 := by
  decide

/-- C7: under the default configuration
`LWB_CONF_SCHED_PERIOD_MIN ≤ LWB_CONF_SCHED_PERIOD_IDLE ≤ LWB_CONF_SCHED_PERIOD_MAX`
and `LWB_CONF_SCHED_PERIOD_MAX` does not exceed 127. -/
theorem C7_default_periods_consistent (a b d : Nat) :
    LWB_CONF_SCHED_PERIOD_MIN (lwb_conf_default a b d)
      ≤ LWB_CONF_SCHED_PERIOD_IDLE (lwb_conf_default a b d) ∧
    LWB_CONF_SCHED_PERIOD_IDLE (lwb_conf_default a b d)
      ≤ LWB_CONF_SCHED_PERIOD_MAX (lwb_conf_default a b d) ∧
    LWB_CONF_SCHED_PERIOD_MAX (lwb_conf_default a b d) ≤ 127 ∧
    LWB_CONF_SCHED_PERIOD_MIN (lwb_conf_default a b d) = 2 ∧
    LWB_CONF_SCHED_PERIOD_IDLE (lwb_conf_default a b d) = 10 ∧
    LWB_CONF_SCHED_PERIOD_MAX (lwb_conf_default a b d) = 30 := by
  refine ⟨?_, ?_, ?_, rfl, rfl, rfl⟩
  · show 2 ≤ 10
    decide
  · show 10 ≤ 30
    decide
  · show 30 ≤ 127
    decide



/-! ## S-ACK queue -/

theorem sack_enqueue_length_le (c : lwb_conf) (ctx : lwb_sched_ctx) (node_id stream_id : Nat)
    (h : ctx.pending_sack.length ≤ LWB_CONF_SCHED_SACK_BUFFER_SIZE c) :
    (sack_enqueue c ctx node_id stream_id).pending_sack.length
      ≤ LWB_CONF_SCHED_SACK_BUFFER_SIZE c := by
  unfold sack_enqueue
  split
  · simp only [List.length_append, List.length_singleton]; omega
  · exact h

theorem sack_enqueue_full (c : lwb_conf) (ctx : lwb_sched_ctx) (node_id stream_id : Nat)
    (h : LWB_CONF_SCHED_SACK_BUFFER_SIZE c ≤ ctx.pending_sack.length) :
    sack_enqueue c ctx node_id stream_id
      = { ctx with stats := { ctx.stats with
            n_no_space := (ctx.stats.n_no_space + 1) % 2 ^ 16 } } := by
  unfold sack_enqueue
  rw [if_neg (by omega)]

theorem proc_srq_length_le (c : lwb_conf) (p : lwb_sched_params) (now : Nat)
    (ctx : lwb_sched_ctx) (req : lwb_stream_req_t)
    (h : ctx.pending_sack.length ≤ LWB_CONF_SCHED_SACK_BUFFER_SIZE c) :
    (lwb_sched_proc_srq c p now ctx req).pending_sack.length
      ≤ LWB_CONF_SCHED_SACK_BUFFER_SIZE c := by
  unfold lwb_sched_proc_srq
  simp only
  split
  · split
    · exact h
    · exact h
  · split
    · exact sack_enqueue_length_le c _ _ _ h
    · split
      · exact sack_enqueue_length_le c _ _ _ h
      · exact h

theorem prepare_sack_length_le (c : lwb_conf) (p : lwb_sched_params) (ctx : lwb_sched_ctx) :
    (lwb_sched_prepare_sack c p ctx).1.pending_sack.length ≤ ctx.pending_sack.length := by
  unfold lwb_sched_prepare_sack
  split
  · exact Nat.le_refl _
  · next first rest heq =>
    simp only [heq, List.length_drop, List.length_cons]
    omega

theorem call_apply_length_le (c : lwb_conf) (p : lwb_sched_params) (ctx : lwb_sched_ctx)
    (call : lwb_sched_call)
    (h : ctx.pending_sack.length ≤ LWB_CONF_SCHED_SACK_BUFFER_SIZE c) :
    (call.apply c p ctx).pending_sack.length ≤ LWB_CONF_SCHED_SACK_BUFFER_SIZE c := by
  cases call with
  | proc_srq now req => exact proc_srq_length_le c p now ctx req h
  | prepare_sack => exact Nat.le_trans (prepare_sack_length_le c p ctx) h

theorem run_length_le (c : lwb_conf) (p : lwb_sched_params) (calls : List lwb_sched_call) :
    ∀ ctx : lwb_sched_ctx,
      ctx.pending_sack.length ≤ LWB_CONF_SCHED_SACK_BUFFER_SIZE c →
      (lwb_sched_run c p ctx calls).pending_sack.length
        ≤ LWB_CONF_SCHED_SACK_BUFFER_SIZE c := by
  induction calls with
  | nil => intro ctx h; exact h
  | cons call rest ih =>
    intro ctx h
    exact ih (call.apply c p ctx) (call_apply_length_le c p ctx call h)

/-- C8: after every sequence of stream requests and S-ACK preparations,
started from the initial context or from any context whose queue respects the
bound, the S-ACK queue holds at most `LWB_CONF_SCHED_SACK_BUFFER_SIZE` entries;
and an acknowledgment enqueued while the queue is full, directly or by a
request that is admitted or updated, leaves the queue as it was and increments
the 16-bit no-space counter. -/
theorem C8_sack_queue_bounded (c : lwb_conf) (p : lwb_sched_params)
    (calls : List lwb_sched_call) (ctx : lwb_sched_ctx) (now : Nat)
    (req : lwb_stream_req_t) (node_id stream_id : Nat) :
    (lwb_sched_run c p lwb_sched_init_ctx calls).pending_sack.length
      ≤ LWB_CONF_SCHED_SACK_BUFFER_SIZE c ∧
    (ctx.pending_sack.length ≤ LWB_CONF_SCHED_SACK_BUFFER_SIZE c →
      (lwb_sched_run c p ctx calls).pending_sack.length
        ≤ LWB_CONF_SCHED_SACK_BUFFER_SIZE c) ∧
    (LWB_CONF_SCHED_SACK_BUFFER_SIZE c ≤ ctx.pending_sack.length →
      (sack_enqueue c ctx node_id stream_id).pending_sack = ctx.pending_sack ∧
      (sack_enqueue c ctx node_id stream_id).stats.n_no_space
        = (ctx.stats.n_no_space + 1) % 2 ^ 16) ∧
    (LWB_CONF_SCHED_SACK_BUFFER_SIZE c ≤ ctx.pending_sack.length →
      (lwb_sched_proc_srq c p now ctx req).pending_sack = ctx.pending_sack) ∧
    (LWB_CONF_SCHED_SACK_BUFFER_SIZE c ≤ ctx.pending_sack.length →
      ipi_means_remove p req.ipi = false →
      (ctx.streams.any (fun s => s.is req.node_id req.stream_id) = true ∨
        ctx.streams.length < p.max_n_streams) →
      (lwb_sched_proc_srq c p now ctx req).stats.n_no_space
        = (ctx.stats.n_no_space + 1) % 2 ^ 16) := by
  refine ⟨run_length_le c p calls _ (Nat.zero_le _), run_length_le c p calls ctx, ?_, ?_, ?_⟩
  · intro h
    rw [sack_enqueue_full c ctx node_id stream_id h]
    exact ⟨rfl, rfl⟩
  · intro h
    unfold lwb_sched_proc_srq
    simp only
    split
    · split <;> rfl
    · split
      · rw [sack_enqueue_full c _ _ _ (by exact h)]
      · split
        · rw [sack_enqueue_full c _ _ _ (by exact h)]
        · rfl
  · intro h hrem hadm
    unfold lwb_sched_proc_srq
    simp only [hrem, Bool.false_eq_true, if_false]
    by_cases hpres : ctx.streams.any (fun s => s.is req.node_id req.stream_id) = true
    · rw [if_pos hpres, sack_enqueue_full c _ _ _ (by exact h)]
    · have hroom : ctx.streams.length < p.max_n_streams := by
        rcases hadm with hp | hr
        · exact absurd hp hpres
        · exact hr
      rw [if_neg hpres, if_pos hroom, sack_enqueue_full c _ _ _ (by exact h)]

/-- C8 on a queue filled by seven admissions under the default buffer size 5:
five acknowledgments are queued, two are dropped and counted, and an eighth
admission leaves the queue as it is and raises the counter to 3. -/
theorem C8_sack_queue_bounded_witness :
    (lwb_sched_run (lwb_conf_default 20 0 63) ⟨10, none, 4⟩ lwb_sched_init_ctx
      ((List.range 7).map (fun i => .proc_srq i ⟨i + 2, 1, 3, []⟩))).pending_sack
      = [(2, 1), (3, 1), (4, 1), (5, 1), (6, 1)] ∧
    (lwb_sched_run (lwb_conf_default 20 0 63) ⟨10, none, 4⟩ lwb_sched_init_ctx
      ((List.range 7).map (fun i => .proc_srq i ⟨i + 2, 1, 3, []⟩))).stats.n_no_space = 2 ∧
    (lwb_sched_proc_srq (lwb_conf_default 20 0 63) ⟨10, none, 4⟩ 7
      (lwb_sched_run (lwb_conf_default 20 0 63) ⟨10, none, 4⟩ lwb_sched_init_ctx
        ((List.range 7).map (fun i => .proc_srq i ⟨i + 2, 1, 3, []⟩)))
      ⟨9, 1, 3, []⟩).pending_sack
      = [(2, 1), (3, 1), (4, 1), (5, 1), (6, 1)] ∧
    (lwb_sched_proc_srq (lwb_conf_default 20 0 63) ⟨10, none, 4⟩ 7
      (lwb_sched_run (lwb_conf_default 20 0 63) ⟨10, none, 4⟩ lwb_sched_init_ctx
        ((List.range 7).map (fun i => .proc_srq i ⟨i + 2, 1, 3, []⟩)))
      ⟨9, 1, 3, []⟩).stats.n_no_space = 3 :=
  have h := C8_sack_queue_bounded (lwb_conf_default 20 0 63) ⟨10, none, 4⟩ []
    (lwb_sched_run (lwb_conf_default 20 0 63) ⟨10, none, 4⟩ lwb_sched_init_ctx
      ((List.range 7).map (fun i => .proc_srq i ⟨i + 2, 1, 3, []⟩)))
    7 ⟨9, 1, 3, []⟩ 9 1
  ⟨by decide, by decide,
    (h.2.2.2.1 (by decide)).trans (by decide),
    (h.2.2.2.2 (by decide) (by decide) (Or.inr (by decide))).trans (by decide)⟩

/-! ## Host slots -/

theorem take_take_replicate_append (h cap x : Nat) (rest : List Nat) (hcap : h ≤ cap) :
    ((List.replicate h x ++ rest).take cap).take h = List.replicate h x := by
  rw [List.take_take, Nat.min_eq_left hcap]
  exact List.take_left' (List.length_replicate h x)

theorem length_take_replicate_append (h cap x : Nat) (rest : List Nat) (hcap : h ≤ cap) :
    h ≤ ((List.replicate h x ++ rest).take cap).length := by
  simp only [List.length_take, List.length_append, List.length_replicate]
  omega

theorem compute_slot (c : lwb_conf) (p : lwb_sched_params) (ctx : lwb_sched_ctx)
    (sched : lwb_schedule_t) (serviced : List (Nat × Nat)) (n_slot_host : Nat) :
    (lwb_sched_compute c p ctx sched serviced n_slot_host).2.slot
      = (List.replicate n_slot_host sched.host_id ++
          (iterate_due_demand (mark_round_outcome c serviced ctx)).flatMap
            (fun d => List.replicate d.2 d.1.node_id)).take (LWB_CONF_MAX_DATA_SLOTS c) := by
  unfold lwb_sched_compute
  simp only
  split <;> split <;> rfl

theorem compute_n_slots (c : lwb_conf) (p : lwb_sched_params) (ctx : lwb_sched_ctx)
    (sched : lwb_schedule_t) (serviced : List (Nat × Nat)) (n_slot_host : Nat) :
    LWB_SCHED_N_SLOTS (lwb_sched_compute c p ctx sched serviced n_slot_host).2
      = ((lwb_sched_compute c p ctx sched serviced n_slot_host).2.slot.length % 2 ^ 8) % 2 ^ 6 := by
  have e6 : (0x40 : Nat) = 2 ^ 6 := by norm_num
  have e7 : (0x80 : Nat) = 2 ^ 7 := by norm_num
  have hc : ∀ s : lwb_schedule_t,
      LWB_SCHED_N_SLOTS (LWB_SCHED_SET_CONT_SLOT s) = LWB_SCHED_N_SLOTS s := by
    intro s
    unfold LWB_SCHED_N_SLOTS LWB_SCHED_SET_CONT_SLOT
    simp only [e6]; exact set_flag_low_bits s.n_slots 6 (by norm_num) (by norm_num)
  have hs : ∀ s : lwb_schedule_t,
      LWB_SCHED_N_SLOTS (LWB_SCHED_SET_SACK_SLOT s) = LWB_SCHED_N_SLOTS s := by
    intro s
    unfold LWB_SCHED_N_SLOTS LWB_SCHED_SET_SACK_SLOT
    simp only [e7]; exact set_flag_low_bits s.n_slots 7 (by norm_num) (by norm_num)
  rw [compute_slot]
  unfold lwb_sched_compute
  simp only
  split <;> split <;> (try simp only [hc, hs]) <;> exact n_slots_mask _

/-- C4: for every registry state, previous schedule and set of served streams,
and every `n_slot_host = h` with `h ≤ LWB_CONF_MAX_DATA_SLOTS`, the schedule
`lwb_sched_compute` produces has at least `h` slot entries and its first `h`
entries are the host's node id; when the schedule capacity fits the six-bit
count, `LWB_SCHED_N_SLOTS` of the result is that number of entries. -/
theorem C4_host_slots_first (c : lwb_conf) (p : lwb_sched_params) (ctx : lwb_sched_ctx)
    (sched : lwb_schedule_t) (serviced : List (Nat × Nat)) (h : Nat)
    (hcap : h ≤ LWB_CONF_MAX_DATA_SLOTS c) :
    h ≤ (lwb_sched_compute c p ctx sched serviced h).2.slot.length ∧
    (lwb_sched_compute c p ctx sched serviced h).2.slot.take h
      = List.replicate h sched.host_id ∧
    (∀ i, i < h →
      (lwb_sched_compute c p ctx sched serviced h).2.slot.get? i = some sched.host_id) ∧
    (LWB_CONF_MAX_DATA_SLOTS c ≤ 63 →
      LWB_SCHED_N_SLOTS (lwb_sched_compute c p ctx sched serviced h).2
        = (lwb_sched_compute c p ctx sched serviced h).2.slot.length ∧
      h ≤ LWB_SCHED_N_SLOTS (lwb_sched_compute c p ctx sched serviced h).2) := by
  have hlen := length_take_replicate_append h (LWB_CONF_MAX_DATA_SLOTS c) sched.host_id
    ((iterate_due_demand (mark_round_outcome c serviced ctx)).flatMap
      (fun d => List.replicate d.2 d.1.node_id)) hcap
  have htake := take_take_replicate_append h (LWB_CONF_MAX_DATA_SLOTS c) sched.host_id
    ((iterate_due_demand (mark_round_outcome c serviced ctx)).flatMap
      (fun d => List.replicate d.2 d.1.node_id)) hcap
  rw [← compute_slot c p ctx sched serviced h] at hlen htake
  refine ⟨hlen, htake, ?_, ?_⟩
  · intro i hi
    have h1 : ((lwb_sched_compute c p ctx sched serviced h).2.slot.take h).get? i
        = (lwb_sched_compute c p ctx sched serviced h).2.slot.get? i := by
      simp only [List.get?_eq_getElem?]
      exact List.getElem?_take_of_lt hi
    rw [← h1, htake]
    simp only [List.get?_eq_getElem?]
    exact List.getElem?_replicate_of_lt hi
  · intro h63
    have hle : (lwb_sched_compute c p ctx sched serviced h).2.slot.length
        ≤ LWB_CONF_MAX_DATA_SLOTS c := by
      rw [compute_slot]
      simp only [List.length_take]
      omega
    have hn := compute_n_slots c p ctx sched serviced h
    have : LWB_SCHED_N_SLOTS (lwb_sched_compute c p ctx sched serviced h).2
        = (lwb_sched_compute c p ctx sched serviced h).2.slot.length := by
      rw [hn]; omega
    exact ⟨this, by omega⟩

/-- C4 with one host slot, capacity 2 and three streams that are all due: the
schedule is the host followed by the first stream, with the contention flag. -/
theorem C4_host_slots_first_witness :
    1 ≤ LWB_CONF_MAX_DATA_SLOTS (lwb_conf_default 2 0 63) ∧
    (lwb_sched_compute (lwb_conf_default 2 0 63) ⟨10, none, 4⟩
      ⟨[⟨2, 1, 1, [], 0, 0⟩, ⟨3, 1, 1, [], 0, 0⟩, ⟨4, 1, 1, [], 0, 0⟩], [], ⟨3, 0, 0, 0, 0⟩⟩
      ⟨100, 1, 10, 0, []⟩ [] 1).2.slot.take 1 = List.replicate 1 1 ∧
    (lwb_sched_compute (lwb_conf_default 2 0 63) ⟨10, none, 4⟩
      ⟨[⟨2, 1, 1, [], 0, 0⟩, ⟨3, 1, 1, [], 0, 0⟩, ⟨4, 1, 1, [], 0, 0⟩], [], ⟨3, 0, 0, 0, 0⟩⟩
      ⟨100, 1, 10, 0, []⟩ [] 1).2 = ⟨100, 1, 10, 0x42, [1, 2]⟩ :=
  ⟨by decide,
    (C4_host_slots_first (lwb_conf_default 2 0 63) ⟨10, none, 4⟩
      ⟨[⟨2, 1, 1, [], 0, 0⟩, ⟨3, 1, 1, [], 0, 0⟩, ⟨4, 1, 1, [], 0, 0⟩], [], ⟨3, 0, 0, 0, 0⟩⟩
      ⟨100, 1, 10, 0, []⟩ [] 1 (by decide)).2.1,
    by decide⟩

/-! ## Slot-count byte: counts above 63 -/

set_option maxRecDepth 100000 in
theorem n_slots_overflow_flag : ∀ b : Fin 256, 64 ≤ b.val →
    (decide ((b.val &&& 0x40) > 0) || decide ((b.val &&& 0x80) > 0)) = true := by
  decide

/-- C11: a count `c` in `0..255` stored directly in `n_slots` is read back by
`LWB_SCHED_N_SLOTS` as `c mod 64`, hence as `c` exactly when `c ≤ 63`;
`LWB_SCHED_N_SLOTS` never exceeds 63 on any schedule; and for `c ≥ 64` the
stored count reads back with the contention-slot or the S-ACK-slot flag set
although no flag macro was applied; for `c = 64` it reads as zero data slots
and a contention slot. -/
theorem C11_n_slots_count_limit (s : lwb_schedule_t) (c : Nat) (hc : c ≤ 255) :
    LWB_SCHED_N_SLOTS { s with n_slots := c } = c % 64 ∧
    (LWB_SCHED_N_SLOTS { s with n_slots := c } = c ↔ c ≤ 63) ∧
    LWB_SCHED_N_SLOTS s ≤ 63 ∧
    (64 ≤ c → LWB_SCHED_HAS_CONT_SLOT { s with n_slots := c } = true ∨
      LWB_SCHED_HAS_SACK_SLOT { s with n_slots := c } = true) ∧
    LWB_SCHED_N_SLOTS { s with n_slots := 64 } = 0 ∧
    LWB_SCHED_HAS_DATA_SLOT { s with n_slots := 64 } = false ∧
    LWB_SCHED_HAS_CONT_SLOT { s with n_slots := 64 } = true ∧
    LWB_SCHED_HAS_SACK_SLOT { s with n_slots := 64 } = false := by
  have hmask : LWB_SCHED_N_SLOTS { s with n_slots := c } = c % 64 := n_slots_mask c
  have hany : LWB_SCHED_N_SLOTS s = s.n_slots % 64 := n_slots_mask s.n_slots
  refine ⟨hmask, ?_, ?_, ?_, ?_, ?_, ?_, ?_⟩
  · rw [hmask]; omega
  · rw [hany]; omega
  · intro h64
    have h := n_slots_overflow_flag ⟨c, by omega⟩ h64
    rw [Bool.or_eq_true] at h
    exact h
  · show ((64 : Nat) &&& 0x3f) = 0
    decide
  · show decide (((64 : Nat) &&& 0x3f) > 0) = false
    decide
  · show decide (((64 : Nat) &&& 0x40) > 0) = true
    decide
  · show decide (((64 : Nat) &&& 0x80) > 0) = false
    decide

/-- C11 at the count 64 and at the largest byte 255, which reads as 63 data
slots with both flags. -/
theorem C11_n_slots_count_limit_witness :
    (255 : Nat) ≤ 255 ∧
    LWB_SCHED_N_SLOTS ⟨0, 1, 10, 255, []⟩ = 255 % 64 ∧
    (LWB_SCHED_HAS_CONT_SLOT ⟨0, 1, 10, 255, []⟩ = true ∨
      LWB_SCHED_HAS_SACK_SLOT ⟨0, 1, 10, 255, []⟩ = true) ∧
    LWB_SCHED_N_SLOTS ⟨0, 1, 10, 64, []⟩ = 0 ∧
    LWB_SCHED_HAS_CONT_SLOT ⟨0, 1, 10, 64, []⟩ = true :=
  have h := C11_n_slots_count_limit ⟨0, 1, 10, 0, []⟩ 255 (by decide)
  ⟨by decide, h.1, h.2.2.2.1 (by decide), h.2.2.2.2.1, h.2.2.2.2.2.2.1⟩

end LWB
